import Mathlib

/-!
The Hello gRPC server, `grpc/server/server.go`.

A shallow embedding of the two functions of `server.go`:

* `Say`, the handler of the unary RPC, as a state-passing function over the
  memory of the process and its trace of observable events;
* `main`, the bootstrap, as a function over the same state, run against an
  environment that answers the calls into `net` and `grpc`.

Go values are modelled as follows: a `string` is its sequence of bytes, a
pointer is `nil` or an address into a typed store, an `error` is `Option GoError`
(`none` for `nil`), and a call either returns, panics or never returns.
-/

namespace HelloServer

/-! ## Go values -/

/-- A Go string: an immutable sequence of bytes, not necessarily valid UTF-8. -/
abbrev GoString := List UInt8

/-- The bytes of a string literal of the source file, which is UTF-8 encoded. -/
def goString (s : String) : GoString := s.toUTF8.data.toList

/-- A Go pointer to a value of type `α`: nil, or the address of a live object. -/
inductive Ptr (α : Type) where
  | nil : Ptr α
  | addr (a : Nat) : Ptr α
  deriving DecidableEq

/-- A non-nil value of the built-in interface `error`; `Error` is the text its
method `Error()` returns. A Go `error` is `Option GoError`, `none` being nil. -/
structure GoError where
  Error : GoString
  deriving DecidableEq

/-- A value of `context.Context`, identified by a handle. -/
structure Context where
  handle : Nat
  deriving DecidableEq

/-- The value a panicking goroutine carries. -/
inductive Panic where
  /-- runtime error: invalid memory address or nil pointer dereference -/
  | nilDereference : Panic
  deriving DecidableEq

/-! ## The generated package `grpc/proto` and the handler type -/

/-- Modelled from the spec: the generated message type `proto.SayRequest` is not
among the sources; the spec gives the request a single field, a name (text). -/
structure SayRequest where
  Name : GoString
  deriving DecidableEq

/-- Modelled from the spec: the generated message type `proto.SayResponse` is not
among the sources; the spec gives the response a single field, a message (text). -/
structure SayResponse where
  Message : GoString
  deriving DecidableEq

/-- Modelled from the spec: the generated type `proto.UnimplementedHelloServer` is
not among the sources; it is the embeddable default implementation of the
service interface and carries no data. -/
structure UnimplementedHelloServer where
  deriving DecidableEq

/-- The handler type: `type server struct { proto.UnimplementedHelloServer }`. -/
structure server where
  embedded : UnimplementedHelloServer
  deriving DecidableEq

/-- A `*grpc.Server` as returned by `grpc.NewServer()`, identified by a handle. -/
structure GrpcServer where
  handle : Nat
  deriving DecidableEq

/-- A non-nil `net.Listener`, identified by a handle. -/
structure Listener where
  handle : Nat
  deriving DecidableEq

/-! ## Observable events and the state of the process -/

/-- The calls the program makes out of its own code, in the order made. -/
inductive Event where
  /-- `net.Listen(network, address)` was called. -/
  | netListen (network address : GoString)
  /-- bytes were written to standard output by `fmt.Println` or `fmt.Printf` -/
  | stdout (text : GoString)
  /-- `grpc.NewServer()` was called and returned `s`. -/
  | grpcNewServer (s : GrpcServer)
  /-- `proto.RegisterHelloServer(s, srv)` was called. -/
  | registerHelloServer (s : GrpcServer) (srv : Ptr server)
  /-- `s.Serve(lis)` was called. -/
  | serve (s : GrpcServer) (lis : Listener)
  /-- the pending `s.Serve` call returned `err`. -/
  | serveReturned (err : Option GoError)
  /-- `s.Stop()` was called. -/
  | stop (s : GrpcServer)
  /-- `lis.Close()` was called. -/
  | close (lis : Listener)
  /-- `os.Exit(code)` was called, setting the exit code of the process. -/
  | osExit (code : Int)
  deriving DecidableEq

/-- The state of the process: the typed stores pointers point into, the
allocation mark (every address handed out so far is at most `brk`, and address
`0` is never handed out), and the trace of events so far, oldest first. -/
structure Process where
  requests : Nat → SayRequest
  responses : Nat → SayResponse
  servers : Nat → server
  brk : Nat
  trace : List Event

/-! ## Running Go code -/

/-- How a call ends: it returns a value, it panics, or it never returns. Each
carries the state reached. -/
inductive Outcome (σ α : Type) where
  | returned (val : α) (st : σ)
  | panicked (v : Panic) (st : σ)
  | blocked (st : σ)

/-- Go code over a state `σ` producing an `α`. -/
abbrev GoM (σ α : Type) := σ → Outcome σ α

/-- Sequencing: the second statement runs only when the first one returns. -/
def GoM.andThen {σ α β : Type} (m : GoM σ α) (f : α → GoM σ β) : GoM σ β := fun st =>
  match m st with
  | .returned a st1 => f a st1
  | .panicked v st1 => .panicked v st1
  | .blocked st1 => .blocked st1

instance {σ : Type} : Monad (GoM σ) where
  pure a := fun st => .returned a st
  bind m f := GoM.andThen m f

/-- Append one event to the trace. -/
def Process.emit (st : Process) (e : Event) : Process :=
  { st with trace := st.trace ++ [e] }

/-- The field access `req.Name` evaluates `*req`: a nil pointer faults. -/
def loadRequest (req : Ptr SayRequest) : GoM Process SayRequest := fun st =>
  match req with
  | .nil => .panicked .nilDereference st
  | .addr a => .returned (st.requests a) st

/-- The composite literal `&proto.SayResponse{...}`: a fresh object. -/
def newSayResponse (v : SayResponse) : GoM Process (Ptr SayResponse) := fun st =>
  .returned (.addr (st.brk + 1))
    { st with responses := Function.update st.responses (st.brk + 1) v, brk := st.brk + 1 }

/-- The composite literal `&server{}`: a fresh object. -/
def newServerValue (v : server) : GoM Process (Ptr server) := fun st =>
  .returned (.addr (st.brk + 1))
    { st with servers := Function.update st.servers (st.brk + 1) v, brk := st.brk + 1 }

/-- The text `fmt.Println` writes for string operands: the operands separated by
single spaces, then a newline. -/
def sprintln : List GoString → GoString
  | [] => goString "\n"
  | [a] => a ++ goString "\n"
  | a :: b :: rest => a ++ goString " " ++ sprintln (b :: rest)

/-- `fmt.Println(operands...)` on string operands. -/
def fmtPrintln (operands : List GoString) : GoM Process Unit := fun st =>
  .returned () (st.emit (.stdout (sprintln operands)))

/-- The text `fmt.Printf` writes for a format with the verb `%v` and one error
operand: the format with the first `%v` replaced by the operand's `Error()`. -/
def sprintfV : GoString → GoError → GoString
  | [], _ => []
  | [c], _ => [c]
  | c :: d :: rest, err =>
    if c = 37 ∧ d = 118 then err.Error ++ rest else c :: sprintfV (d :: rest) err

/-- `fmt.Printf(format, err)` with a non-nil error operand. -/
def fmtPrintf (format : GoString) (err : GoError) : GoM Process Unit := fun st =>
  .returned () (st.emit (.stdout (sprintfV format err)))

/-! ## The handler -/

/-- The handler of the unary call, in the source:
```go
func (s *server) Say(ctx context.Context, req *proto.SayRequest) (*proto.SayResponse, error) {
	fmt.Println("request:", req.Name)
	return &proto.SayResponse{Message: "Hello " + req.Name}, nil
}
```
-/
def Say (_s : Ptr server) (_ctx : Context) (req : Ptr SayRequest) :
    GoM Process (Ptr SayResponse × Option GoError) := do
  let r ← loadRequest req
  fmtPrintln [goString "request:", r.Name]
  let r ← loadRequest req
  let resp ← newSayResponse { Message := goString "Hello " ++ r.Name }
  return (resp, none)

/-- The message a response pointer designates in a state; nil designates none. -/
def Process.messageAt (st : Process) : Ptr SayResponse → Option GoString
  | .nil => none
  | .addr a => some (st.responses a).Message

/-- The name a request pointer designates in a state; nil designates none. -/
def Process.nameAt (st : Process) : Ptr SayRequest → Option GoString
  | .nil => none
  | .addr a => some (st.requests a).Name

/-! ## Function calls with deferred calls -/

/-- The activation of a function that may `defer`: the state of the process and
the calls deferred so far, the most recent first. -/
structure Frame where
  proc : Process
  deferred : List (GoM Process Unit)

/-- A statement that does not touch the deferred calls, run inside a frame. -/
def GoM.inFrame {α : Type} (m : GoM Process α) : GoM Frame α := fun f =>
  match m f.proc with
  | .returned a st => .returned a { f with proc := st }
  | .panicked v st => .panicked v { f with proc := st }
  | .blocked st => .blocked { f with proc := st }

/-- The statement `defer call`: the call is pushed, not run. -/
def defer (call : GoM Process Unit) : GoM Frame Unit := fun f =>
  .returned () { f with deferred := call :: f.deferred }

/-- Run the deferred calls of a function that is leaving, the most recent first.
`pending` is the panic under way, if any; a deferred call that panics replaces
it, and the remaining deferred calls still run. -/
def runDeferred : List (GoM Process Unit) → Option Panic → GoM Process Unit
  | [], none => fun st => .returned () st
  | [], some v => fun st => .panicked v st
  | d :: ds, pending => fun st =>
    match d st with
    | .returned _ st1 => runDeferred ds pending st1
    | .panicked v st1 => runDeferred ds (some v) st1
    | .blocked st1 => .blocked st1

/-- Call a function with the given body: the body runs in a fresh frame, and
when it returns or panics the deferred calls run before the caller goes on. A
body that never returns runs no deferred call. -/
def callFunction (body : GoM Frame Unit) : GoM Process Unit := fun st =>
  match body { proc := st, deferred := [] } with
  | .returned _ f => runDeferred f.deferred none f.proc
  | .panicked v f => runDeferred f.deferred (some v) f.proc
  | .blocked f => .blocked f.proc

/-! ## The environment of `main` -/

/-- What `net.Listen` gives back: a listener and a nil error, or a nil listener
and an error. -/
inductive ListenResult where
  | ok (lis : Listener)
  | failed (err : GoError)
  deriving DecidableEq

/-- How the blocking call `s.Serve(lis)` ends: it returns an error value
(possibly nil), or it never returns. -/
inductive ServeResult where
  | returned (err : Option GoError)
  | blocks
  deriving DecidableEq

/-- The answers of the libraries `net` and `grpc` during one run. -/
structure Env where
  listenResult : GoString → GoString → ListenResult
  newServer : GrpcServer
  serveResult : GrpcServer → Listener → ServeResult

/-- `net.Listen(network, address)`. -/
def netListen (env : Env) (network address : GoString) : GoM Process ListenResult := fun st =>
  .returned (env.listenResult network address) (st.emit (.netListen network address))

/-- `grpc.NewServer()`. -/
def grpcNewServer (env : Env) : GoM Process GrpcServer := fun st =>
  .returned env.newServer (st.emit (.grpcNewServer env.newServer))

/-- `proto.RegisterHelloServer(s, srv)`. -/
def RegisterHelloServer (s : GrpcServer) (srv : Ptr server) : GoM Process Unit := fun st =>
  .returned () (st.emit (.registerHelloServer s srv))

/-- `s.Serve(lis)`: blocks while serving. The handler calls the framework makes
on other goroutines meanwhile are not events of the caller. -/
def Serve (env : Env) (s : GrpcServer) (lis : Listener) : GoM Process (Option GoError) := fun st =>
  match env.serveResult s lis with
  | .returned err => .returned err ((st.emit (.serve s lis)).emit (.serveReturned err))
  | .blocks => .blocked (st.emit (.serve s lis))

/-- `s.Stop()`. -/
def Stop (s : GrpcServer) : GoM Process Unit := fun st =>
  .returned () (st.emit (.stop s))

/-- `lis.Close()`, its result discarded. -/
def Close (lis : Listener) : GoM Process Unit := fun st =>
  .returned () (st.emit (.close lis))

/-! ## The bootstrap -/

/-- The body of `main`, in the source:
```go
	listen, err := net.Listen("tcp", ":8001")
	if err != nil {
		fmt.Printf("failed to listen: %v", err)
		return
	}
	s := grpc.NewServer()
	proto.RegisterHelloServer(s, &server{})
	defer func() {
		s.Stop()
		listen.Close()
	}()

	fmt.Println("Serving 8001...")
	err = s.Serve(listen)
	if err != nil {
		fmt.Printf("failed to serve: %v", err)
		return
	}
```
-/
def mainBody (env : Env) : GoM Frame Unit := do
  let r ← (netListen env (goString "tcp") (goString ":8001")).inFrame
  match r with
  | .failed err =>
    (fmtPrintf (goString "failed to listen: %v") err).inFrame
  | .ok listen =>
    let s ← (grpcNewServer env).inFrame
    let srv ← (newServerValue { embedded := {} }).inFrame
    (RegisterHelloServer s srv).inFrame
    defer (do Stop s; Close listen)
    (fmtPrintln [goString "Serving 8001..."]).inFrame
    let err ← (Serve env s listen).inFrame
    match err with
    | some e => (fmtPrintf (goString "failed to serve: %v") e).inFrame
    | none => pure ()

/-- `func main()`: the body above, then its deferred calls. -/
def main (env : Env) : GoM Process Unit :=
  callFunction (mainBody env)

/-! ## Reading outcomes and traces -/

/-- The state an outcome carries. -/
def Outcome.state {σ α : Type} : Outcome σ α → σ
  | .returned _ st => st
  | .panicked _ st => st
  | .blocked st => st

/-- Whether an event is a call of `net.Listen`. -/
def Event.isListen : Event → Bool
  | .netListen _ _ => true
  | _ => false

/-- Whether an event is a call of `grpc.NewServer`. -/
def Event.isNewServer : Event → Bool
  | .grpcNewServer _ => true
  | _ => false

/-- Whether an event is a call of `proto.RegisterHelloServer`. -/
def Event.isRegister : Event → Bool
  | .registerHelloServer _ _ => true
  | _ => false

/-- Whether an event is a call of `Serve`. -/
def Event.isServe : Event → Bool
  | .serve _ _ => true
  | _ => false

/-- Whether an event is a call of `Stop`. -/
def Event.isStop : Event → Bool
  | .stop _ => true
  | _ => false

/-- Whether an event is a call of `Close`. -/
def Event.isClose : Event → Bool
  | .close _ => true
  | _ => false

/-- Whether an event is a call of `os.Exit`. -/
def Event.isExit : Event → Bool
  | .osExit _ => true
  | _ => false

/-- Whether an event is a write to standard output. -/
def Event.isStdout : Event → Bool
  | .stdout _ => true
  | _ => false

/-! ## States used to state and test the results -/

/-- The state `Say` leaves when its request is the object at address `a`. -/
def sayPost (st : Process) (a : Nat) : Process :=
  { st with
    responses := Function.update st.responses (st.brk + 1)
      { Message := goString "Hello " ++ (st.requests a).Name }
    brk := st.brk + 1
    trace := st.trace ++ [.stdout (sprintln [goString "request:", (st.requests a).Name])] }

/-- A state whose every request carries the given name, with nothing allocated
and nothing traced. -/
def Process.init (name : GoString) : Process :=
  { requests := fun _ => { Name := name }
    responses := fun _ => { Message := [] }
    servers := fun _ => { embedded := {} }
    brk := 0
    trace := [] }

/-- An environment in which the bind succeeds with listener `7`, the server is
`3`, and `Serve` ends as given. -/
def Env.serving (r : ServeResult) : Env :=
  { listenResult := fun _ _ => .ok { handle := 7 }
    newServer := { handle := 3 }
    serveResult := fun _ _ => r }

/-- An environment in which the bind fails with the given text, as when the
port is already bound. -/
def Env.bindFails (text : GoString) : Env :=
  { listenResult := fun _ _ => .failed { Error := text }
    newServer := { handle := 3 }
    serveResult := fun _ _ => .blocks }

/-- The state `main` has reached when it calls `Serve`, without the trace: the
handler value `&server{}` has been allocated. -/
def servingState (st : Process) : Process :=
  { st with
    servers := Function.update st.servers (st.brk + 1) { embedded := {} }
    brk := st.brk + 1 }

/-- The events of `main` from its start up to and including the call of `Serve`. -/
def startupEvents (env : Env) (st : Process) (lis : Listener) : List Event :=
  [.netListen (goString "tcp") (goString ":8001"),
   .grpcNewServer env.newServer,
   .registerHelloServer env.newServer (.addr (st.brk + 1)),
   .stdout (goString "Serving 8001...\n"),
   .serve env.newServer lis]

/-! ## Calls of `Say` in flight at the same time

Each call of `Say` runs on its own goroutine. A call is cut into its four
primitive operations, each atomic: evaluate `req.Name` for `Println`, print,
evaluate `req.Name` for the concatenation, allocate the response and return.
The calls share the state of the process and a scheduler picks which goes next. -/

/-- Where a call of `Say` stands between two of its operations. -/
inductive SayPc where
  /-- nothing executed yet -/
  | entry
  /-- the operands of `fmt.Println` are evaluated; `name` is the value read -/
  | argumentsReady (name : GoString)
  /-- `fmt.Println` has returned -/
  | printed
  /-- `req.Name` is evaluated for the concatenation; `name` is the value read -/
  | operandReady (name : GoString)
  /-- the call has returned `(resp, err)` -/
  | done (resp : Ptr SayResponse) (err : Option GoError)
  /-- the call has panicked -/
  | faulted (v : Panic)
  deriving DecidableEq

/-- A call of `Say` in flight: its arguments and where it stands. -/
structure SayCall where
  s : Ptr server
  ctx : Context
  req : Ptr SayRequest
  pc : SayPc
  deriving DecidableEq

/-- Move a call on by the outcome of the operation it has just run. -/
def SayCall.advance {α : Type} (c : SayCall) (o : Outcome Process α) (next : α → SayPc) :
    SayCall × Process :=
  match o with
  | .returned a st1 => ({ c with pc := next a }, st1)
  | .panicked v st1 => ({ c with pc := .faulted v }, st1)
  | .blocked st1 => (c, st1)

/-- One operation of a call of `Say`, on the shared state. A call that has
returned or panicked does nothing more. -/
def SayCall.step (c : SayCall) (st : Process) : SayCall × Process :=
  match c.pc with
  | .entry => c.advance (loadRequest c.req st) (fun r => .argumentsReady r.Name)
  | .argumentsReady name =>
    c.advance (fmtPrintln [goString "request:", name] st) (fun _ => .printed)
  | .printed => c.advance (loadRequest c.req st) (fun r => .operandReady r.Name)
  | .operandReady name =>
    c.advance (newSayResponse { Message := goString "Hello " ++ name } st)
      (fun resp => .done resp none)
  | .done _ _ => (c, st)
  | .faulted _ => (c, st)

/-- The calls in flight and the state they share. -/
structure Pool where
  calls : List SayCall
  proc : Process

/-- The scheduler lets call `i` run one operation; an index that names no call
changes nothing. -/
def Pool.step (P : Pool) (i : Nat) : Pool :=
  match P.calls[i]? with
  | none => P
  | some c => { calls := P.calls.set i (c.step P.proc).1, proc := (c.step P.proc).2 }

/-- Run a schedule: the indices of the calls to step, in order. -/
def Pool.run (P : Pool) (sched : List Nat) : Pool :=
  sched.foldl Pool.step P

/-- The calls with the given arguments, none of them started, over a state. -/
def Pool.start (inputs : List (Ptr server × Context × Ptr SayRequest)) (st : Process) : Pool :=
  { calls := inputs.map (fun x => { s := x.1, ctx := x.2.1, req := x.2.2, pc := .entry })
    proc := st }

/-- How far a call has got: the number of operations behind it, `4` once it has
returned or panicked. -/
def SayPc.rank : SayPc → Nat
  | .entry => 0
  | .argumentsReady _ => 1
  | .printed => 2
  | .operandReady _ => 3
  | .done _ _ => 4
  | .faulted _ => 4

/-- What holds of a call in flight, `st0` being the state the calls started from
and `cur` the present one: the names it has read are its own request's, and once
it has returned, its response is a live object holding its own greeting. -/
def CallOk (st0 cur : Process) (c : SayCall) : Prop :=
  match c.pc with
  | .entry => True
  | .argumentsReady name => st0.nameAt c.req = some name
  | .printed => c.req ≠ .nil
  | .operandReady name => st0.nameAt c.req = some name
  | .done p e => e = none ∧ ∃ q name, p = .addr q ∧ q ≤ cur.brk ∧ st0.brk < q ∧
      st0.nameAt c.req = some name ∧ (cur.responses q).Message = goString "Hello " ++ name
  | .faulted v => v = .nilDereference ∧ c.req = .nil

/-- The invariant of a pool started from `inputs` over `st0`: no request object
has changed, the calls are those started, each with its arguments, each in
order, and two calls that have returned hold different response objects. -/
def PoolOk (inputs : List (Ptr server × Context × Ptr SayRequest)) (st0 : Process)
    (P : Pool) : Prop :=
  P.proc.requests = st0.requests ∧
  st0.brk ≤ P.proc.brk ∧
  P.calls.length = inputs.length ∧
  (∀ (i : Nat) (c : SayCall), P.calls[i]? = some c → inputs[i]? = some (c.s, c.ctx, c.req) ∧ CallOk st0 P.proc c) ∧
  (∀ (i j : Nat) (ci cj : SayCall) (p q : Ptr SayResponse) (e1 e2 : Option GoError), i ≠ j → P.calls[i]? = some ci → P.calls[j]? = some cj →
    ci.pc = .done p e1 → cj.pc = .done q e2 → p ≠ q)

/-- Two requests, "Ann" at address 1 and "Bob" at address 2. -/
def Process.twoRequests : Process :=
  { requests := fun a => if a = 1 then { Name := goString "Ann" } else { Name := goString "Bob" }
    responses := fun _ => { Message := [] }
    servers := fun _ => { embedded := {} }
    brk := 2
    trace := [] }

/-! ## Facts about the formatting helpers -/

/-- The literal bytes of a concatenation are the concatenation of the bytes. -/
theorem goString_append (a b : String) : goString (a ++ b) = goString a ++ goString b := by
  simp [goString, String.toUTF8]

/-- Println of two strings writes them with one space between and a newline. -/
theorem sprintln_pair (a b : GoString) :
    sprintln [a, b] = a ++ goString " " ++ b ++ goString "\n" := by
  simp [sprintln]

/-- A format that ends in its only `%v` prints as its text before the verb
followed by the error's text. -/
theorem sprintfV_verb_last (l : GoString) (e : GoError) (h : (37 : UInt8) ∉ l) :
    sprintfV (l ++ [37, 118]) e = l ++ e.Error := by
  induction l with
  | nil => simp [sprintfV]
  | cons c t ih =>
    have hc : c ≠ 37 := fun hc => h (by simp [hc])
    have ht : (37 : UInt8) ∉ t := fun ht => h (by simp [ht])
    cases t with
    | nil => simp [sprintfV, hc]
    | cons d r =>
      have := ih ht
      simp only [List.cons_append] at this ⊢
      simp [sprintfV, hc, this]

/-- What `fmt.Printf("failed to listen: %v", err)` writes. -/
theorem sprintfV_failed_to_listen (e : GoError) :
    sprintfV (goString "failed to listen: %v") e = goString "failed to listen: " ++ e.Error :=
  sprintfV_verb_last (goString "failed to listen: ") e (by decide)

/-- What `fmt.Printf("failed to serve: %v", err)` writes. -/
theorem sprintfV_failed_to_serve (e : GoError) :
    sprintfV (goString "failed to serve: %v") e = goString "failed to serve: " ++ e.Error :=
  sprintfV_verb_last (goString "failed to serve: ") e (by decide)

/-! ## The handler `Say` -/

/-- On a non-nil request `Say` returns a fresh response and a nil error. -/
theorem Say_addr (s : Ptr server) (ctx : Context) (a : Nat) (st : Process) :
    Say s ctx (.addr a) st = .returned (.addr (st.brk + 1), none) (sayPost st a) := rfl

/-- On a nil request `Say` panics before doing anything. -/
theorem Say_nil (s : Ptr server) (ctx : Context) (st : Process) :
    Say s ctx .nil st = .panicked .nilDereference st := rfl

/-- The message of the response `Say` returns. -/
theorem sayPost_messageAt (st : Process) (a : Nat) :
    (sayPost st a).messageAt (.addr (st.brk + 1))
      = some (goString "Hello " ++ (st.requests a).Name) := by
  simp [sayPost, Process.messageAt]

/-- A request pointer that designates a name is not nil. -/
theorem nameAt_eq_some {st : Process} {req : Ptr SayRequest} {name : GoString}
    (h : st.nameAt req = some name) : ∃ a, req = .addr a ∧ (st.requests a).Name = name := by
  cases req with
  | nil => simp [Process.nameAt] at h
  | addr a => exact ⟨a, rfl, by simpa [Process.nameAt] using h⟩

/-- C1: for every byte string `name`, `Say` on a request whose `Name` is `name`
returns a non-nil response with a nil error, and the response's `Message` is
exactly the bytes of "Hello " followed by the bytes of `name`; when `name` is the
encoding of a text `n`, empty or not, ASCII or not, the message is the encoding
of "Hello " ++ n. -/
theorem Say_message_is_hello_name (s : Ptr server) (ctx : Context) (req : Ptr SayRequest)
    (st : Process) (name : GoString) (h : st.nameAt req = some name) :
    ∃ (p : Nat) (st1 : Process),
      Say s ctx req st = .returned (.addr p, none) st1 ∧
      st1.messageAt (.addr p) = some (goString "Hello " ++ name) ∧
      ∀ n : String, name = goString n → st1.messageAt (.addr p) = some (goString ("Hello " ++ n)) := by
  obtain ⟨a, rfl, ha⟩ := nameAt_eq_some h
  refine ⟨st.brk + 1, sayPost st a, Say_addr s ctx a st, ?_, ?_⟩
  · rw [sayPost_messageAt, ha]
  · intro n hn
    rw [sayPost_messageAt, ha, hn, goString_append]

/-- Witness for C1: the names "World", "" and "日本". -/
theorem Say_message_is_hello_name_witness :
    ((Process.init (goString "World")).nameAt (.addr 3) = some (goString "World") ∧
      ∃ (p : Nat) (st1 : Process),
        Say .nil ⟨0⟩ (.addr 3) (Process.init (goString "World")) = .returned (.addr p, none) st1 ∧
        st1.messageAt (.addr p) = some (goString "Hello World")) ∧
    ((Process.init []).nameAt (.addr 3) = some [] ∧
      ∃ (p : Nat) (st1 : Process),
        Say .nil ⟨0⟩ (.addr 3) (Process.init []) = .returned (.addr p, none) st1 ∧
        st1.messageAt (.addr p) = some (goString "Hello ")) ∧
    ((Process.init (goString "日本")).nameAt (.addr 3) = some (goString "日本") ∧
      ∃ (p : Nat) (st1 : Process),
        Say .nil ⟨0⟩ (.addr 3) (Process.init (goString "日本")) = .returned (.addr p, none) st1 ∧
        st1.messageAt (.addr p) = some (goString "Hello 日本")) := by
  refine ⟨⟨rfl, ?_⟩, ⟨rfl, ?_⟩, ⟨rfl, ?_⟩⟩
  · obtain ⟨p, st1, h1, _, h3⟩ :=
      Say_message_is_hello_name .nil ⟨0⟩ (.addr 3) (Process.init (goString "World")) _ rfl
    exact ⟨p, st1, h1, h3 "World" rfl⟩
  · obtain ⟨p, st1, h1, _, h3⟩ :=
      Say_message_is_hello_name .nil ⟨0⟩ (.addr 3) (Process.init []) _ rfl
    exact ⟨p, st1, h1, h3 "" rfl⟩
  · obtain ⟨p, st1, h1, _, h3⟩ :=
      Say_message_is_hello_name .nil ⟨0⟩ (.addr 3) (Process.init (goString "日本")) _ rfl
    exact ⟨p, st1, h1, h3 "日本" rfl⟩

/-- C2: on every request, whatever bytes its name holds, `Say` returns, with a
nil error and a non-nil response; and on no input at all, the nil request
pointer included, does `Say` return a non-nil error or a nil response. -/
theorem Say_always_succeeds (s : Ptr server) (ctx : Context) (st : Process) :
    (∀ a : Nat, ∃ (p : Nat) (st1 : Process),
      Say s ctx (.addr a) st = .returned (.addr p, none) st1) ∧
    (∀ (req : Ptr SayRequest) (resp : Ptr SayResponse) (err : Option GoError) (st1 : Process),
      Say s ctx req st = .returned (resp, err) st1 → err = none ∧ resp ≠ .nil) := by
  refine ⟨fun a => ⟨_, _, Say_addr s ctx a st⟩, ?_⟩
  intro req resp err st1 h
  cases req with
  | nil => rw [Say_nil] at h; cases h
  | addr a =>
    rw [Say_addr] at h
    cases h
    exact ⟨rfl, by simp⟩

/-- Witness for C2: a name of bytes that are not valid UTF-8. -/
theorem Say_always_succeeds_witness :
    ∃ (st1 : Process), Say (.addr 1) ⟨0⟩ (.addr 3) (Process.init [0xff, 0xfe]) =
        .returned (.addr 1, none) st1 ∧
      (none : Option GoError) = none ∧ (Ptr.addr 1 : Ptr SayResponse) ≠ .nil :=
  ⟨_, rfl, (Say_always_succeeds (.addr 1) ⟨0⟩ (Process.init [0xff, 0xfe])).2 (.addr 3) (.addr 1)
    none _ rfl⟩

/-- `Say` writes neither the store of requests nor the store of servers, however
it ends. -/
theorem Say_frame (s : Ptr server) (ctx : Context) (req : Ptr SayRequest) (st : Process) :
    (Say s ctx req st).state.requests = st.requests ∧
    (Say s ctx req st).state.servers = st.servers := by
  cases req with
  | nil => exact ⟨rfl, rfl⟩
  | addr a => exact ⟨rfl, rfl⟩

/-- C7: the message `Say` returns is a function of the request's name alone: two
calls whose requests carry the same name return equal messages, whatever the
receivers, the contexts and the states (hence whatever calls were made before);
and `Say` leaves every request object and every server object as it was, its
only effects being the fresh response and the line written to standard output. -/
theorem Say_depends_on_name_only (s1 s2 : Ptr server) (ctx1 ctx2 : Context)
    (req1 req2 : Ptr SayRequest) (st1 st2 : Process) (name : GoString)
    (h1 : st1.nameAt req1 = some name) (h2 : st2.nameAt req2 = some name) :
    ∃ (p1 p2 : Ptr SayResponse) (post1 post2 : Process),
      Say s1 ctx1 req1 st1 = .returned (p1, none) post1 ∧
      Say s2 ctx2 req2 st2 = .returned (p2, none) post2 ∧
      post1.messageAt p1 = post2.messageAt p2 ∧
      post1.messageAt p1 = some (goString "Hello " ++ name) ∧
      (post1.requests = st1.requests ∧ post1.servers = st1.servers) ∧
      (post2.requests = st2.requests ∧ post2.servers = st2.servers) ∧
      post1.trace = st1.trace ++ [.stdout (goString "request: " ++ name ++ goString "\n")] ∧
      post2.trace = st2.trace ++ [.stdout (goString "request: " ++ name ++ goString "\n")] := by
  obtain ⟨a1, rfl, ha1⟩ := nameAt_eq_some h1
  obtain ⟨a2, rfl, ha2⟩ := nameAt_eq_some h2
  refine ⟨_, _, _, _, Say_addr s1 ctx1 a1 st1, Say_addr s2 ctx2 a2 st2, ?_, ?_,
    ⟨rfl, rfl⟩, ⟨rfl, rfl⟩, ?_, ?_⟩
  · rw [sayPost_messageAt, sayPost_messageAt, ha1, ha2]
  · rw [sayPost_messageAt, ha1]
  · simp only [sayPost, sprintln_pair, ha1]
    rfl
  · simp only [sayPost, sprintln_pair, ha2]
    rfl

/-- Witness for C7: two calls with different receivers, contexts and states, the
second state being the one the first call left. -/
theorem Say_depends_on_name_only_witness :
    (Process.init (goString "Bob")).nameAt (.addr 3) = some (goString "Bob") ∧
    (sayPost (Process.init (goString "Bob")) 3).nameAt (.addr 8) = some (goString "Bob") ∧
    ∃ (p1 p2 : Ptr SayResponse) (post1 post2 : Process),
      Say .nil ⟨0⟩ (.addr 3) (Process.init (goString "Bob")) = .returned (p1, none) post1 ∧
      Say (.addr 5) ⟨9⟩ (.addr 8) (sayPost (Process.init (goString "Bob")) 3)
        = .returned (p2, none) post2 ∧
      post1.messageAt p1 = post2.messageAt p2 ∧
      post1.messageAt p1 = some (goString "Hello Bob") := by
  refine ⟨rfl, rfl, ?_⟩
  obtain ⟨p1, p2, post1, post2, h1, h2, h3, h4, _⟩ :=
    Say_depends_on_name_only .nil (.addr 5) ⟨0⟩ ⟨9⟩ (.addr 3) (.addr 8)
      (Process.init (goString "Bob")) (sayPost (Process.init (goString "Bob")) 3)
      (goString "Bob") rfl rfl
  exact ⟨p1, p2, post1, post2, h1, h2, h3, h4⟩

/-- C10: `Say` evaluates `req.Name` with no nil check. On every non-nil request it
returns normally; on the nil request pointer it panics with a nil dereference
before anything is printed, returning neither a response nor an error. So `Say`
returns exactly when its request is not nil. -/
theorem Say_returns_iff_request_not_nil (s : Ptr server) (ctx : Context) (st : Process) :
    (∀ a : Nat, ∃ (p : Nat) (st1 : Process),
      Say s ctx (.addr a) st = .returned (.addr p, none) st1) ∧
    Say s ctx .nil st = .panicked .nilDereference st ∧
    (∀ req : Ptr SayRequest,
      (∃ (r : Ptr SayResponse × Option GoError) (st1 : Process),
        Say s ctx req st = .returned r st1) ↔ req ≠ .nil) := by
  refine ⟨fun a => ⟨_, _, Say_addr s ctx a st⟩, Say_nil s ctx st, ?_⟩
  intro req
  cases req with
  | nil =>
    constructor
    · rintro ⟨r, st1, h⟩
      rw [Say_nil] at h
      cases h
    · intro h
      exact absurd rfl h
  | addr a =>
    constructor
    · intro _
      simp
    · intro _
      exact ⟨_, _, Say_addr s ctx a st⟩

/-- Witness for C10: one state, the nil request and a non-nil one. -/
theorem Say_returns_iff_request_not_nil_witness :
    Say (.addr 1) ⟨0⟩ .nil (Process.init (goString "x"))
      = .panicked .nilDereference (Process.init (goString "x")) ∧
    ((Ptr.addr 3 : Ptr SayRequest) ≠ .nil ∧
      ∃ (r : Ptr SayResponse × Option GoError) (st1 : Process),
        Say (.addr 1) ⟨0⟩ (.addr 3) (Process.init (goString "x")) = .returned r st1) :=
  have h := Say_returns_iff_request_not_nil (.addr 1) ⟨0⟩ (Process.init (goString "x"))
  ⟨h.2.1, by simp, (h.2.2 (.addr 3)).2 (by simp)⟩

/-! ## The bootstrap `main` -/

/-- The run of `main` when the bind fails. -/
theorem main_bind_failed (env : Env) (st : Process) (err : GoError)
    (h : env.listenResult (goString "tcp") (goString ":8001") = .failed err) :
    main env st = .returned ()
      { st with trace := st.trace ++ [.netListen (goString "tcp") (goString ":8001"),
          .stdout (goString "failed to listen: " ++ err.Error)] } := by
  simp [main, callFunction, mainBody, bind, GoM.andThen, GoM.inFrame, netListen, h, fmtPrintf,
    runDeferred, Process.emit, sprintfV_failed_to_listen]

/-- The run of `main` when the bind succeeds and `Serve` returns an error. -/
theorem main_serve_failed (env : Env) (st : Process) (lis : Listener) (err : GoError)
    (h : env.listenResult (goString "tcp") (goString ":8001") = .ok lis)
    (hs : env.serveResult env.newServer lis = .returned (some err)) :
    main env st = .returned ()
      { servingState st with
        trace := st.trace ++ (startupEvents env st lis ++
          [.serveReturned (some err),
           .stdout (goString "failed to serve: " ++ err.Error),
           .stop env.newServer,
           .close lis]) } := by
  simp [main, callFunction, mainBody, bind, GoM.andThen, GoM.inFrame, netListen, h, hs, fmtPrintf,
    runDeferred, Process.emit, grpcNewServer, newServerValue, RegisterHelloServer, defer,
    fmtPrintln, Serve, Stop, Close, sprintfV_failed_to_serve, servingState, startupEvents]
  rfl

/-- The run of `main` when the bind succeeds and `Serve` returns nil. -/
theorem main_serve_ended (env : Env) (st : Process) (lis : Listener)
    (h : env.listenResult (goString "tcp") (goString ":8001") = .ok lis)
    (hs : env.serveResult env.newServer lis = .returned none) :
    main env st = .returned ()
      { servingState st with
        trace := st.trace ++ (startupEvents env st lis ++
          [.serveReturned none, .stop env.newServer, .close lis]) } := by
  simp [main, callFunction, mainBody, bind, GoM.andThen, GoM.inFrame, netListen, h, hs,
    runDeferred, Process.emit, grpcNewServer, newServerValue, RegisterHelloServer, defer,
    fmtPrintln, Serve, Stop, Close, pure, servingState, startupEvents]
  rfl

/-- The run of `main` when the bind succeeds and `Serve` never returns. -/
theorem main_serve_blocks (env : Env) (st : Process) (lis : Listener)
    (h : env.listenResult (goString "tcp") (goString ":8001") = .ok lis)
    (hs : env.serveResult env.newServer lis = .blocks) :
    main env st = .blocked
      { servingState st with trace := st.trace ++ startupEvents env st lis } := by
  simp [main, callFunction, mainBody, bind, GoM.andThen, GoM.inFrame, netListen, h, hs,
    runDeferred, Process.emit, grpcNewServer, newServerValue, RegisterHelloServer, defer,
    fmtPrintln, Serve, Stop, Close, pure, servingState, startupEvents]
  rfl

/-- C3: when the bind succeeded and `Serve` returns, with an error or with nil,
`main` returns, and its events end with `Stop` on the server and then `Close` on
the listener, both after the return of `Serve`; no other event of the run is a
`Stop` or a `Close`, so each is executed exactly once. -/
theorem main_cleanup_once_after_serve (env : Env) (st : Process) (lis : Listener)
    (err : Option GoError)
    (hb : env.listenResult (goString "tcp") (goString ":8001") = .ok lis)
    (hs : env.serveResult env.newServer lis = .returned err) :
    ∃ (post : Process) (startup messages : List Event),
      main env st = .returned () post ∧
      post.trace = st.trace ++ (startup ++ [Event.serve env.newServer lis, Event.serveReturned err]
        ++ messages ++ [Event.stop env.newServer, Event.close lis]) ∧
      (∀ e ∈ startup ++ [Event.serve env.newServer lis, Event.serveReturned err] ++ messages,
        e.isStop = false ∧ e.isClose = false) ∧
      (startup ++ [Event.serve env.newServer lis, Event.serveReturned err] ++ messages
        ++ [Event.stop env.newServer, Event.close lis]).countP Event.isStop = 1 ∧
      (startup ++ [Event.serve env.newServer lis, Event.serveReturned err] ++ messages
        ++ [Event.stop env.newServer, Event.close lis]).countP Event.isClose = 1 := by
  cases err with
  | none =>
    refine ⟨_, [Event.netListen (goString "tcp") (goString ":8001"), Event.grpcNewServer env.newServer,
      Event.registerHelloServer env.newServer (.addr (st.brk + 1)),
      Event.stdout (goString "Serving 8001...\n")], [], main_serve_ended env st lis hb hs, rfl, ?_, ?_, ?_⟩
    · intro e he
      simp at he
      rcases he with rfl | rfl | rfl | rfl | rfl | rfl <;> exact ⟨rfl, rfl⟩
    · simp [List.countP_cons, Event.isStop]
    · simp [List.countP_cons, Event.isClose]
  | some e0 =>
    refine ⟨_, [Event.netListen (goString "tcp") (goString ":8001"), Event.grpcNewServer env.newServer,
      Event.registerHelloServer env.newServer (.addr (st.brk + 1)),
      Event.stdout (goString "Serving 8001...\n")],
      [Event.stdout (goString "failed to serve: " ++ e0.Error)],
      main_serve_failed env st lis e0 hb hs, rfl, ?_, ?_, ?_⟩
    · intro e he
      simp at he
      rcases he with rfl | rfl | rfl | rfl | rfl | rfl | rfl <;> exact ⟨rfl, rfl⟩
    · simp [List.countP_cons, Event.isStop]
    · simp [List.countP_cons, Event.isClose]

/-- Witness for C3: `Serve` returns nil, as when the listener is closed from
outside. -/
theorem main_cleanup_once_after_serve_witness :
    (Env.serving (.returned none)).listenResult (goString "tcp") (goString ":8001") = .ok ⟨7⟩ ∧
    (Env.serving (.returned none)).serveResult (Env.serving (.returned none)).newServer ⟨7⟩
      = .returned none ∧
    ∃ (post : Process) (startup messages : List Event),
      main (Env.serving (.returned none)) (Process.init []) = .returned () post ∧
      post.trace = (Process.init []).trace ++ (startup ++ [Event.serve ⟨3⟩ ⟨7⟩, Event.serveReturned none]
        ++ messages ++ [Event.stop ⟨3⟩, Event.close ⟨7⟩]) := by
  refine ⟨rfl, rfl, ?_⟩
  obtain ⟨post, startup, messages, h1, h2, _⟩ :=
    main_cleanup_once_after_serve (Env.serving (.returned none)) (Process.init []) ⟨7⟩ none rfl rfl
  exact ⟨post, startup, messages, h1, h2⟩

/-- C4: when the bind fails with `err`, `main` returns after exactly two events,
the call of `net.Listen` and the write of "failed to listen: " followed by the
error's text: no server is created, no handler is allocated or registered,
`Serve` is not called and `os.Exit` is not called. -/
theorem main_bind_failure_returns (env : Env) (st : Process) (err : GoError)
    (hb : env.listenResult (goString "tcp") (goString ":8001") = .failed err) :
    ∃ (post : Process) (new : List Event),
      main env st = .returned () post ∧
      post.trace = st.trace ++ new ∧
      new = [Event.netListen (goString "tcp") (goString ":8001"),
        Event.stdout (goString "failed to listen: " ++ err.Error)] ∧
      (∀ e ∈ new, e.isNewServer = false ∧ e.isRegister = false ∧ e.isServe = false ∧
        e.isExit = false) ∧
      post.servers = st.servers ∧ post.brk = st.brk := by
  refine ⟨_, _, main_bind_failed env st err hb, rfl, rfl, ?_, rfl, rfl⟩
  intro e he
  simp at he
  rcases he with rfl | rfl <;> exact ⟨rfl, rfl, rfl, rfl⟩

/-- Witness for C4: the port is already bound. -/
theorem main_bind_failure_returns_witness :
    (Env.bindFails (goString "address already in use")).listenResult (goString "tcp")
      (goString ":8001") = .failed ⟨goString "address already in use"⟩ ∧
    ∃ (post : Process),
      main (Env.bindFails (goString "address already in use")) (Process.init []) =
        .returned () post ∧
      post.trace = [Event.netListen (goString "tcp") (goString ":8001"),
        Event.stdout (goString "failed to listen: address already in use")] := by
  refine ⟨rfl, ?_⟩
  obtain ⟨post, new, h1, h2, h3, _⟩ :=
    main_bind_failure_returns (Env.bindFails (goString "address already in use"))
      (Process.init []) ⟨goString "address already in use"⟩ rfl
  refine ⟨post, h1, ?_⟩
  rw [h2, h3]
  decide

/-- Every run of `main`, however it ends, makes exactly one call of `net.Listen`,
the first event of the run, and at most one call of `Serve`; it never panics. -/
theorem main_events (env : Env) (st : Process) :
    ∃ rest : List Event,
      (main env st).state.trace =
        st.trace ++ (Event.netListen (goString "tcp") (goString ":8001") :: rest) ∧
      rest.countP Event.isListen = 0 ∧
      rest.countP Event.isServe ≤ 1 ∧
      (∀ v post, main env st ≠ .panicked v post) := by
  cases hb : env.listenResult (goString "tcp") (goString ":8001") with
  | failed err =>
    rw [main_bind_failed env st err hb]
    refine ⟨_, rfl, ?_, ?_, ?_⟩
    · simp [List.countP_cons, Event.isListen]
    · simp [List.countP_cons, Event.isServe]
    · intro v post h
      cases h
  | ok lis =>
    cases hs : env.serveResult env.newServer lis with
    | blocks =>
      rw [main_serve_blocks env st lis hb hs]
      refine ⟨_, rfl, ?_, ?_, ?_⟩
      · simp [List.countP_cons, Event.isListen]
      · simp [List.countP_cons, Event.isServe]
      · intro v post h
        cases h
    | returned err =>
      cases err with
      | none =>
        rw [main_serve_ended env st lis hb hs]
        refine ⟨_, rfl, ?_, ?_, ?_⟩
        · simp [List.countP_cons, Event.isListen]
        · simp [List.countP_cons, Event.isServe]
        · intro v post h
          cases h
      | some e0 =>
        rw [main_serve_failed env st lis e0 hb hs]
        refine ⟨_, rfl, ?_, ?_, ?_⟩
        · simp [List.countP_cons, Event.isListen]
        · simp [List.countP_cons, Event.isServe]
        · intro v post h
          cases h

/-- C5: when `Serve` returns an error, `main` writes "failed to serve: " followed
by the error's text right after the return of `Serve`, then only runs its
cleanup and returns; on every run, however it ends, `net.Listen` and `Serve` are
each called at most once; and when `Serve` returns nil the only text written is
the line "Serving 8001...". -/
theorem main_serve_failure_no_retry (env : Env) (st : Process) :
    (∀ (lis : Listener) (err : GoError),
      env.listenResult (goString "tcp") (goString ":8001") = .ok lis →
      env.serveResult env.newServer lis = .returned (some err) →
      ∃ (post : Process) (startup : List Event),
        main env st = .returned () post ∧
        post.trace = st.trace ++ (startup ++
          [Event.serve env.newServer lis, Event.serveReturned (some err),
           Event.stdout (goString "failed to serve: " ++ err.Error),
           Event.stop env.newServer, Event.close lis]) ∧
        startup.countP Event.isListen = 1 ∧ startup.countP Event.isServe = 0) ∧
    (∃ new : List Event,
      (main env st).state.trace = st.trace ++ new ∧
      new.countP Event.isListen ≤ 1 ∧ new.countP Event.isServe ≤ 1) ∧
    (∀ lis : Listener,
      env.listenResult (goString "tcp") (goString ":8001") = .ok lis →
      env.serveResult env.newServer lis = .returned none →
      ∃ (post : Process) (new : List Event),
        main env st = .returned () post ∧
        post.trace = st.trace ++ new ∧
        new.filter Event.isStdout = [Event.stdout (goString "Serving 8001...\n")]) := by
  refine ⟨?_, ?_, ?_⟩
  · intro lis err hb hs
    refine ⟨_, [Event.netListen (goString "tcp") (goString ":8001"),
      Event.grpcNewServer env.newServer,
      Event.registerHelloServer env.newServer (.addr (st.brk + 1)),
      Event.stdout (goString "Serving 8001...\n")], main_serve_failed env st lis err hb hs,
      rfl, ?_, ?_⟩
    · simp [List.countP_cons, Event.isListen]
    · simp [List.countP_cons, Event.isServe]
  · obtain ⟨rest, h1, h2, h3, _⟩ := main_events env st
    refine ⟨_, h1, ?_, ?_⟩
    · simp [List.countP_cons, Event.isListen, h2]
    · simpa [List.countP_cons, Event.isServe] using h3
  · intro lis hb hs
    refine ⟨_, _, main_serve_ended env st lis hb hs, rfl, ?_⟩
    simp [startupEvents, List.filter_cons, Event.isStdout]

/-- Witness for C5: `Serve` fails with "closed". -/
theorem main_serve_failure_no_retry_witness :
    (Env.serving (.returned (some ⟨goString "closed"⟩))).listenResult (goString "tcp")
      (goString ":8001") = .ok ⟨7⟩ ∧
    (Env.serving (.returned (some ⟨goString "closed"⟩))).serveResult ⟨3⟩ ⟨7⟩
      = .returned (some ⟨goString "closed"⟩) ∧
    ∃ (post : Process) (startup : List Event),
      main (Env.serving (.returned (some ⟨goString "closed"⟩))) (Process.init []) =
        .returned () post ∧
      post.trace = (Process.init []).trace ++ (startup ++
        [Event.serve ⟨3⟩ ⟨7⟩, Event.serveReturned (some ⟨goString "closed"⟩),
         Event.stdout (goString "failed to serve: " ++ goString "closed"),
         Event.stop ⟨3⟩, Event.close ⟨7⟩]) := by
  refine ⟨rfl, rfl, ?_⟩
  obtain ⟨post, startup, h1, h2, _⟩ :=
    (main_serve_failure_no_retry (Env.serving (.returned (some ⟨goString "closed"⟩)))
      (Process.init [])).1 ⟨7⟩ ⟨goString "closed"⟩ rfl rfl
  exact ⟨post, startup, h1, h2⟩

/-- C6: on every run, whatever the environment answers and whatever the state,
the first event of `main` is the call `net.Listen("tcp", ":8001")`, and no later
event of the run is a call of `net.Listen`. -/
theorem main_listens_once_on_fixed_endpoint (env : Env) (st : Process) :
    ∃ rest : List Event,
      (main env st).state.trace =
        st.trace ++ (Event.netListen (goString "tcp") (goString ":8001") :: rest) ∧
      rest.countP Event.isListen = 0 ∧
      goString "tcp" = [116, 99, 112] ∧ goString ":8001" = [58, 56, 48, 48, 49] := by
  obtain ⟨rest, h1, h2, _⟩ := main_events env st
  exact ⟨rest, h1, h2, by decide, by decide⟩

/-- C9: when the bind succeeds with listener `lis`, the events of `main` begin
with: the call of `net.Listen`, `grpc.NewServer` returning `s`, the registration
on `s` of a pointer to a fresh `server` value, the line "Serving 8001...", and the
call of `Serve` on `s` with `lis`; nothing is registered and `Serve` is not
called again after that. -/
theorem main_startup_order (env : Env) (st : Process) (lis : Listener)
    (hb : env.listenResult (goString "tcp") (goString ":8001") = .ok lis) :
    ∃ rest : List Event,
      (main env st).state.trace = st.trace ++
        ([Event.netListen (goString "tcp") (goString ":8001"),
          Event.grpcNewServer env.newServer,
          Event.registerHelloServer env.newServer (.addr (st.brk + 1)),
          Event.stdout (goString "Serving 8001...\n"),
          Event.serve env.newServer lis] ++ rest) ∧
      rest.countP Event.isRegister = 0 ∧ rest.countP Event.isServe = 0 ∧
      (main env st).state.servers (st.brk + 1) = { embedded := {} } := by
  cases hs : env.serveResult env.newServer lis with
  | blocks =>
    rw [main_serve_blocks env st lis hb hs]
    refine ⟨[], ?_, rfl, rfl, ?_⟩
    · simp [Outcome.state, startupEvents]
    · simp [Outcome.state, servingState]
  | returned err =>
    cases err with
    | none =>
      rw [main_serve_ended env st lis hb hs]
      refine ⟨_, rfl, ?_, ?_, ?_⟩
      · simp [List.countP_cons, Event.isRegister]
      · simp [List.countP_cons, Event.isServe]
      · simp [Outcome.state, servingState]
    | some e0 =>
      rw [main_serve_failed env st lis e0 hb hs]
      refine ⟨_, rfl, ?_, ?_, ?_⟩
      · simp [List.countP_cons, Event.isRegister]
      · simp [List.countP_cons, Event.isServe]
      · simp [Outcome.state, servingState]

/-- Witness for C9: a run in which `Serve` never returns. -/
theorem main_startup_order_witness :
    (Env.serving .blocks).listenResult (goString "tcp") (goString ":8001") = .ok ⟨7⟩ ∧
    ∃ rest : List Event,
      (main (Env.serving .blocks) (Process.init [])).state.trace = (Process.init []).trace ++
        ([Event.netListen (goString "tcp") (goString ":8001"),
          Event.grpcNewServer ⟨3⟩,
          Event.registerHelloServer ⟨3⟩ (.addr 1),
          Event.stdout (goString "Serving 8001...\n"),
          Event.serve ⟨3⟩ ⟨7⟩] ++ rest) := by
  refine ⟨rfl, ?_⟩
  obtain ⟨rest, h1, _⟩ := main_startup_order (Env.serving .blocks) (Process.init []) ⟨7⟩ rfl
  exact ⟨rest, h1⟩

/-! ## Calls of `Say` in flight at the same time -/

/-- Run in a row with no other call in between, the four operations of a call
do what `Say` does. -/
theorem steps_refine_Say (s : Ptr server) (ctx : Context) (req : Ptr SayRequest) (st : Process) :
    match Say s ctx req st with
    | .returned (p, e) st1 =>
      (Pool.start [(s, ctx, req)] st).run [0, 0, 0, 0] = ⟨[⟨s, ctx, req, .done p e⟩], st1⟩
    | .panicked v st1 =>
      (Pool.start [(s, ctx, req)] st).run [0, 0, 0, 0] = ⟨[⟨s, ctx, req, .faulted v⟩], st1⟩
    | .blocked _ => False := by
  cases req with
  | nil => rfl
  | addr a => rfl

/-- An operation of a call keeps the call's arguments. -/
theorem step_arguments (c : SayCall) (st : Process) :
    (c.step st).1.s = c.s ∧ (c.step st).1.ctx = c.ctx ∧ (c.step st).1.req = c.req := by
  obtain ⟨s, ctx, req, pc⟩ := c
  cases pc <;> cases req <;> exact ⟨rfl, rfl, rfl⟩

/-- An operation of a call writes no request, never lowers the allocation mark
and writes no response at or below it. -/
theorem step_extends (c : SayCall) (st : Process) :
    (c.step st).2.requests = st.requests ∧ st.brk ≤ (c.step st).2.brk ∧
    ∀ q, q ≤ st.brk → (c.step st).2.responses q = st.responses q := by
  obtain ⟨s, ctx, req, pc⟩ := c
  cases pc with
  | entry => cases req <;> exact ⟨rfl, le_refl _, fun _ _ => rfl⟩
  | argumentsReady name => exact ⟨rfl, le_refl _, fun _ _ => rfl⟩
  | printed => cases req <;> exact ⟨rfl, le_refl _, fun _ _ => rfl⟩
  | operandReady name =>
    refine ⟨rfl, Nat.le_succ _, fun q hq => ?_⟩
    have hne : q ≠ st.brk + 1 := by omega
    simp [SayCall.step, SayCall.advance, newSayResponse, Function.update, hne]
  | done p e => exact ⟨rfl, le_refl _, fun _ _ => rfl⟩
  | faulted v => exact ⟨rfl, le_refl _, fun _ _ => rfl⟩

/-- What holds of a call goes on holding while other calls allocate. -/
theorem CallOk_mono {st0 cur next : Process} {c : SayCall} (h : CallOk st0 cur c)
    (hbrk : cur.brk ≤ next.brk) (hresp : ∀ q, q ≤ cur.brk → next.responses q = cur.responses q) :
    CallOk st0 next c := by
  obtain ⟨s, ctx, req, pc⟩ := c
  cases pc with
  | done p e =>
    obtain ⟨he, q, name, hp, hq, hq0, hn, hm⟩ := h
    exact ⟨he, q, name, hp, le_trans hq hbrk, hq0, hn, by rw [hresp q hq]; exact hm⟩
  | entry => exact h
  | argumentsReady name => exact h
  | printed => exact h
  | operandReady name => exact h
  | faulted v => exact h

/-- An operation of a call keeps what holds of that call. -/
theorem step_CallOk {st0 cur : Process} {c : SayCall} (hreq : cur.requests = st0.requests)
    (hbrk : st0.brk ≤ cur.brk) (h : CallOk st0 cur c) :
    CallOk st0 (c.step cur).2 (c.step cur).1 := by
  obtain ⟨s, ctx, req, pc⟩ := c
  cases pc with
  | entry =>
    cases req with
    | nil => exact ⟨rfl, rfl⟩
    | addr a =>
      show st0.nameAt (.addr a) = some (cur.requests a).Name
      rw [hreq]
      rfl
  | argumentsReady name =>
    show req ≠ .nil
    intro hnil
    have h1 : st0.nameAt req = some name := h
    rw [hnil] at h1
    cases h1
  | printed =>
    cases req with
    | nil => exact ⟨rfl, rfl⟩
    | addr a =>
      show st0.nameAt (.addr a) = some (cur.requests a).Name
      rw [hreq]
      rfl
  | operandReady name =>
    have h1 : st0.nameAt req = some name := h
    refine ⟨rfl, cur.brk + 1, name, rfl, le_refl _, Nat.lt_succ_of_le hbrk, h1, ?_⟩
    simp [SayCall.step, SayCall.advance, newSayResponse]
  | done p e => exact h
  | faulted v => exact h

/-- A call returns only by its last operation, with the object just allocated;
a call that has returned stays as it is. -/
theorem step_done {cur : Process} {c : SayCall} {p : Ptr SayResponse} {e : Option GoError}
    (h : (c.step cur).1.pc = .done p e) :
    c.pc = .done p e ∨ (p = .addr (cur.brk + 1) ∧ ∀ p1 e1, c.pc ≠ .done p1 e1) := by
  obtain ⟨s, ctx, req, pc⟩ := c
  cases pc with
  | entry => cases req <;> cases h
  | argumentsReady name => cases h
  | printed => cases req <;> cases h
  | operandReady name =>
    right
    refine ⟨?_, fun p1 e1 hc => by cases hc⟩
    simp only [SayCall.step, SayCall.advance, newSayResponse] at h
    cases h
    rfl
  | done p1 e1 => exact Or.inl h
  | faulted v => cases h

/-- Every operation of a call gets it one further, up to its end. -/
theorem step_rank (c : SayCall) (st : Process) :
    min 4 (c.pc.rank + 1) ≤ (c.step st).1.pc.rank := by
  obtain ⟨s, ctx, req, pc⟩ := c
  cases pc with
  | entry => cases req <;> simp [SayCall.step, SayCall.advance, loadRequest, SayPc.rank]
  | argumentsReady name => simp [SayCall.step, SayCall.advance, fmtPrintln, SayPc.rank]
  | printed => cases req <;> simp [SayCall.step, SayCall.advance, loadRequest, SayPc.rank]
  | operandReady name => simp [SayCall.step, SayCall.advance, newSayResponse, SayPc.rank]
  | done p e => simp [SayCall.step, SayPc.rank]
  | faulted v => simp [SayCall.step, SayPc.rank]

/-- The calls of a pool after a step of call `k`, which exists. -/
theorem Pool.step_of_some {P : Pool} {k : Nat} {c : SayCall} (hk : P.calls[k]? = some c) :
    P.step k = { calls := P.calls.set k (c.step P.proc).1, proc := (c.step P.proc).2 } := by
  simp only [Pool.step, hk]

/-- A step on an index that names no call changes nothing. -/
theorem Pool.step_of_none {P : Pool} {k : Nat} (hk : P.calls[k]? = none) : P.step k = P := by
  simp only [Pool.step, hk]

/-- A call other than the one stepped is left as it was. -/
theorem Pool.step_other (P : Pool) {k i : Nat} (hki : k ≠ i) :
    (P.step k).calls[i]? = P.calls[i]? := by
  cases hk : P.calls[k]? with
  | none => rw [Pool.step_of_none hk]
  | some c =>
    rw [Pool.step_of_some hk]
    exact List.getElem?_set_ne hki

/-- The call stepped is replaced by its successor. -/
theorem Pool.step_self {P : Pool} {k : Nat} {c : SayCall} (hk : P.calls[k]? = some c) :
    (P.step k).calls[k]? = some (c.step P.proc).1 := by
  rw [Pool.step_of_some hk]
  have hlt : k < P.calls.length := (List.getElem?_eq_some.1 hk).1
  exact List.getElem?_set_self hlt

/-- The shared state after a step of call `k`. -/
theorem Pool.step_proc {P : Pool} {k : Nat} {c : SayCall} (hk : P.calls[k]? = some c) :
    (P.step k).proc = (c.step P.proc).2 := by
  rw [Pool.step_of_some hk]

/-- The invariant holds when no call has started. -/
theorem PoolOk_start (inputs : List (Ptr server × Context × Ptr SayRequest)) (st : Process) :
    PoolOk inputs st (Pool.start inputs st) := by
  refine ⟨rfl, le_refl _, by simp [Pool.start], ?_, ?_⟩
  · intro i c hc
    simp only [Pool.start, List.getElem?_map] at hc
    cases hi : inputs[i]? with
    | none => rw [hi] at hc; cases hc
    | some x =>
      rw [hi] at hc
      cases hc
      exact ⟨rfl, trivial⟩
  · intro i j ci cj p q e1 e2 _ hci _ hp _
    simp only [Pool.start, List.getElem?_map] at hci
    cases hi : inputs[i]? with
    | none => rw [hi] at hci; cases hci
    | some x =>
      rw [hi] at hci
      cases hci
      cases hp

/-- A step of the scheduler keeps the invariant. -/
theorem PoolOk_step {inputs : List (Ptr server × Context × Ptr SayRequest)} {st0 : Process}
    {P : Pool} (h : PoolOk inputs st0 P) (k : Nat) : PoolOk inputs st0 (P.step k) := by
  cases hk : P.calls[k]? with
  | none => rw [Pool.step_of_none hk]; exact h
  | some c =>
    obtain ⟨hreq, hbrk, hlen, hcalls, hdist⟩ := h
    obtain ⟨hx1, hx2, hx3⟩ := step_extends c P.proc
    obtain ⟨ha1, ha2, ha3⟩ := step_arguments c P.proc
    have hck := hcalls k c hk
    have hproc := Pool.step_proc hk
    have hself := Pool.step_self hk
    -- what holds of any call after the step
    have hafter : ∀ (i : Nat) (d : SayCall), (P.step k).calls[i]? = some d →
        inputs[i]? = some (d.s, d.ctx, d.req) ∧ CallOk st0 (P.step k).proc d := by
      intro i d hd
      by_cases hki : k = i
      · subst hki
        rw [hself] at hd
        cases hd
        rw [hproc, ha1, ha2, ha3]
        exact ⟨hck.1, step_CallOk hreq hbrk hck.2⟩
      · rw [Pool.step_other P hki] at hd
        rw [hproc]
        exact ⟨(hcalls i d hd).1, CallOk_mono (hcalls i d hd).2 hx2 hx3⟩
    -- a response returned before the step is not the one allocated by the step
    have hold : ∀ (j : Nat) (cj : SayCall) (q : Ptr SayResponse) (e2 : Option GoError),
        P.calls[j]? = some cj → cj.pc = .done q e2 → q ≠ .addr (P.proc.brk + 1) := by
      intro j cj q e2 hj hq hqa
      have hok := (hcalls j cj hj).2
      unfold CallOk at hok
      rw [hq] at hok
      obtain ⟨_, q1, name, hq1, hle, _⟩ := hok
      rw [hqa] at hq1
      cases hq1
      omega
    refine ⟨?_, ?_, ?_, hafter, ?_⟩
    · rw [hproc, hx1, hreq]
    · rw [hproc]; exact le_trans hbrk hx2
    · rw [Pool.step_of_some hk, List.length_set, hlen]
    · intro i j ci cj p q e1 e2 hij hi hj hp hq
      by_cases hki : k = i
      · subst hki
        have hkj : k ≠ j := hij
        rw [Pool.step_other P hkj] at hj
        rw [hself] at hi
        cases hi
        rcases step_done hp with hpc | ⟨hpa, _⟩
        · exact hdist k j c cj p q e1 e2 hij hk hj hpc hq
        · rw [hpa]
          exact fun heq => hold j cj q e2 hj hq heq.symm
      · rw [Pool.step_other P hki] at hi
        by_cases hkj : k = j
        · subst hkj
          rw [hself] at hj
          cases hj
          rcases step_done hq with hqc | ⟨hqa, _⟩
          · exact hdist i k ci c p q e1 e2 hij hi hk hp hqc
          · rw [hqa]
            exact hold i ci p e1 hi hp
        · rw [Pool.step_other P hkj] at hj
          exact hdist i j ci cj p q e1 e2 hij hi hj hp hq

/-- Every schedule keeps the invariant. -/
theorem PoolOk_run {inputs : List (Ptr server × Context × Ptr SayRequest)} {st0 : Process}
    (sched : List Nat) {P : Pool} (h : PoolOk inputs st0 P) : PoolOk inputs st0 (P.run sched) := by
  induction sched generalizing P with
  | nil => exact h
  | cons k rest ih => exact ih (PoolOk_step h k)

/-- A schedule that steps call `i` some number of times gets it that many
operations further, up to its end. -/
theorem run_rank (sched : List Nat) (P : Pool) (i : Nat) (c : SayCall)
    (hc : P.calls[i]? = some c) :
    ∃ d, (P.run sched).calls[i]? = some d ∧ min 4 (c.pc.rank + sched.count i) ≤ d.pc.rank := by
  induction sched generalizing P c with
  | nil => exact ⟨c, hc, by simp⟩
  | cons k rest ih =>
    by_cases hki : k = i
    · subst hki
      obtain ⟨d, hd, hrank⟩ := ih (P.step k) (c.step P.proc).1 (Pool.step_self hc)
      refine ⟨d, hd, ?_⟩
      have hs := step_rank c P.proc
      simp only [List.count_cons_self]
      omega
    · have hc1 : (P.step k).calls[i]? = some c := by rw [Pool.step_other P hki]; exact hc
      obtain ⟨d, hd, hrank⟩ := ih (P.step k) c hc1
      refine ⟨d, hd, ?_⟩
      rw [List.count_cons_of_ne (Ne.symm hki)]
      exact hrank

/-- C8: several calls of `Say` in flight over one state, stepped in any order:
under every schedule, call `i` is still there with its own arguments; if it has
returned, its error is nil and its response holds "Hello " followed by the name
of its own request; its response object is not the one of any other call that
has returned; and once the schedule has stepped it four times it has returned
(on a non-nil request) or panicked (on the nil request). -/
theorem concurrent_Say_paired (inputs : List (Ptr server × Context × Ptr SayRequest))
    (st : Process) (sched : List Nat) (i : Nat) (s : Ptr server) (ctx : Context)
    (req : Ptr SayRequest) (hi : inputs[i]? = some (s, ctx, req)) :
    ∃ pc : SayPc,
      ((Pool.start inputs st).run sched).calls[i]? = some ⟨s, ctx, req, pc⟩ ∧
      (∀ (p : Ptr SayResponse) (e : Option GoError), pc = .done p e →
        e = none ∧ ∃ name, st.nameAt req = some name ∧
          ((Pool.start inputs st).run sched).proc.messageAt p
            = some (goString "Hello " ++ name)) ∧
      (∀ (j : Nat) (cj : SayCall) (p q : Ptr SayResponse) (e1 e2 : Option GoError), j ≠ i →
        ((Pool.start inputs st).run sched).calls[j]? = some cj →
        pc = .done p e1 → cj.pc = .done q e2 → p ≠ q) ∧
      (4 ≤ sched.count i →
        (req ≠ .nil → ∃ p, pc = .done p none) ∧
        (req = .nil → pc = .faulted .nilDereference)) := by
  have hstart : (Pool.start inputs st).calls[i]? = some ⟨s, ctx, req, .entry⟩ := by
    simp only [Pool.start, List.getElem?_map, hi]
    rfl
  obtain ⟨d, hd, hrank⟩ := run_rank sched (Pool.start inputs st) i _ hstart
  obtain ⟨_, _, _, hcalls, hdist⟩ := PoolOk_run sched (PoolOk_start inputs st)
  obtain ⟨hin, hok⟩ := hcalls i d hd
  rw [hi] at hin
  obtain ⟨ds, dctx, dreq, pc⟩ := d
  simp only [Option.some.injEq, Prod.mk.injEq] at hin
  obtain ⟨rfl, rfl, rfl⟩ := hin
  refine ⟨pc, hd, ?_, ?_, ?_⟩
  · intro p e hp
    subst hp
    obtain ⟨he, q, name, hq, _, _, hn, hm⟩ := hok
    refine ⟨he, name, hn, ?_⟩
    rw [hq]
    simp only [Process.messageAt, hm]
  · intro j cj p q e1 e2 hji hj hp hq
    exact fun hpq => hdist j i cj _ q p e2 e1 hji hj hd hq hp hpq.symm
  · intro hcount
    have h4 : 4 ≤ pc.rank := by
      have hrank1 : min 4 (0 + sched.count i) ≤ pc.rank := hrank
      omega
    cases pc with
    | entry => simp [SayPc.rank] at h4
    | argumentsReady name => simp [SayPc.rank] at h4
    | printed => simp [SayPc.rank] at h4
    | operandReady name => simp [SayPc.rank] at h4
    | done p e =>
      obtain ⟨he, q, name, _, _, _, hn, _⟩ := hok
      subst he
      refine ⟨fun _ => ⟨p, rfl⟩, fun hnil => ?_⟩
      rw [hnil] at hn
      cases hn
    | faulted v =>
      obtain ⟨hv, hnil⟩ := hok
      subst hv
      exact ⟨fun hne => absurd hnil hne, fun _ => rfl⟩

/-- Witness for C8: two calls, on "Ann" and on "Bob", interleaved so that the
second prints and returns first; the first still answers "Hello Ann". -/
theorem concurrent_Say_paired_witness :
    [((Ptr.nil : Ptr server), (⟨0⟩ : Context), (Ptr.addr 1 : Ptr SayRequest)),
      (Ptr.addr 9, ⟨1⟩, Ptr.addr 2)][0]? = some (Ptr.nil, ⟨0⟩, Ptr.addr 1) ∧
    ∃ p : Ptr SayResponse,
      ((Pool.start [(Ptr.nil, ⟨0⟩, Ptr.addr 1), (Ptr.addr 9, ⟨1⟩, Ptr.addr 2)]
        Process.twoRequests).run [0, 1, 1, 0, 1, 0, 1, 0]).calls[0]?
        = some ⟨Ptr.nil, ⟨0⟩, Ptr.addr 1, .done p none⟩ ∧
      ((Pool.start [(Ptr.nil, ⟨0⟩, Ptr.addr 1), (Ptr.addr 9, ⟨1⟩, Ptr.addr 2)]
        Process.twoRequests).run [0, 1, 1, 0, 1, 0, 1, 0]).proc.messageAt p
        = some (goString "Hello Ann") := by
  refine ⟨rfl, ?_⟩
  obtain ⟨pc, h1, h2, _, h4⟩ :=
    concurrent_Say_paired [(Ptr.nil, ⟨0⟩, Ptr.addr 1), (Ptr.addr 9, ⟨1⟩, Ptr.addr 2)]
      Process.twoRequests [0, 1, 1, 0, 1, 0, 1, 0] 0 Ptr.nil ⟨0⟩ (Ptr.addr 1) rfl
  obtain ⟨p, hp⟩ := (h4 (by decide)).1 (by simp)
  subst hp
  obtain ⟨_, name, hn, hm⟩ := h2 p none rfl
  have hname : name = goString "Ann" := by
    have : Process.twoRequests.nameAt (Ptr.addr 1) = some (goString "Ann") := rfl
    rw [this] at hn
    exact (Option.some.inj hn).symm
  subst hname
  exact ⟨p, h1, hm⟩

end HelloServer
